import Mathlib

/-!
Shallow embedding of `assets/2020/04/4k-aliasing/benchmarks.py`.

The script reads a JMH benchmark CSV into a pandas DataFrame, renames
columns, assigns a numeric `offset` by exact benchmark-name matching,
forces `error` to 0 on rows whose benchmark name matches the regex
pattern `ld_blocks_partial.address_alias`, computes a derived column
`r/w offset`, and pivots two row subsets for plotting.

A DataFrame row is modelled as an association list from column names to
cell values; a cell is a string, a rational number, or NaN (`Val.na`).
Every column-level statement of the script is row-wise, so the pipeline
is a map of a single row transformation `prepRow` over the rows.
-/

namespace Benchmarks

/-- A cell of the DataFrame: a string, a (rational) number, or NaN. -/
inductive Val where
  | vstr : String → Val
  | vnum : ℚ → Val
  | na : Val
deriving DecidableEq

/-- A row: association list from column names to cell values. -/
abbrev Row := List (String × Val)

/-- Read column `c` of row `r`; a missing column reads as NaN. -/
def getCol (r : Row) (c : String) : Val :=
  match r.find? (fun p => decide (p.1 = c)) with
  | some p => p.2
  | none => Val.na

/-- Does row `r` have a column named `c`? -/
def hasCol (r : Row) (c : String) : Bool :=
  r.any (fun p => decide (p.1 = c))

/-- Set column `c` of row `r` to `v`, appending the column if absent. -/
def setCol (r : Row) (c : String) (v : Val) : Row :=
  if hasCol r c then r.map (fun p => if p.1 = c then (c, v) else p)
  else r ++ [(c, v)]

/-- Does the list of characters `l` start with `pat`? -/
def leadsWith : List Char → List Char → Bool
  | [], _ => true
  | _ :: _, [] => false
  | a :: as, b :: bs => a == b && leadsWith as bs

/-- The pattern removed by `str.lower(name).replace('param: ', '')`. -/
def paramPat : List Char := "param: ".data

/-- Python `s.replace('param: ', '')`: scan left to right, skipping each
(non-overlapping) occurrence of the 7-character pattern `param: `. -/
def removeParam : List Char → List Char
  | 'p' :: 'a' :: 'r' :: 'a' :: 'm' :: ':' :: ' ' :: rest => removeParam rest
  | c :: cs => c :: removeParam cs
  | [] => []

/-- Python `str.lower` on the ASCII column labels (Lean's ASCII lowercase). -/
def pyLower (s : String) : String := String.mk (s.data.map Char.toLower)

/-- The function `rename_columns` of the script: the exact label `Score Error (99.9%)`
becomes `error`; any other label is lowercased and every occurrence of
`param: ` is removed (Python `str.replace` replaces all occurrences). -/
def rename_columns (name : String) : String :=
  if name = "Score Error (99.9%)" then "error"
  else String.mk (removeParam (pyLower name).data)

/-- First literal chunk of the regex `ld_blocks_partial.address_alias`. -/
def aliasPre : List Char := "ld_blocks_partial".data

/-- Second literal chunk of the regex `ld_blocks_partial.address_alias`. -/
def aliasPost : List Char := "address_alias".data

/-- Does the regex `ld_blocks_partial.address_alias` match at the head of
`l`?  The `.` is an unescaped regex wildcard: any character but newline. -/
def aliasHere (l : List Char) : Bool :=
  leadsWith aliasPre l &&
    (match l.drop aliasPre.length with
     | [] => false
     | c :: rest => c != '\n' && leadsWith aliasPost rest)

/-- Does `p` hold of some suffix of the character list? -/
def anyTail (p : List Char → Bool) : List Char → Bool
  | [] => p []
  | c :: cs => p (c :: cs) || anyTail p cs

/-- The mask `Series.str.contains('ld_blocks_partial.address_alias')`, which is a
regex search (the dot is a wildcard). -/
def strContainsAlias (s : String) : Bool := anyTail aliasHere s.data

/-- Literal substring containment of `pat` in `s` (used to state claims
that speak of the substring `ld_blocks_partial.address_alias`). -/
def containsLit (pat : List Char) (s : String) : Bool :=
  anyTail (fun l => leadsWith pat l) s.data

/-- The literal string `ld_blocks_partial.address_alias` as characters. -/
def aliasLit : List Char := "ld_blocks_partial.address_alias".data

/-- One raw CSV row: the columns `pd.read_csv('perfnorm.csv')` produces
(spec §6), with arbitrary cell values. -/
structure CsvRow where
  benchmark : Val
  mode : Val
  threads : Val
  samples : Val
  unit : Val
  score : Val
  scoreError : Val
  sourcesize : Val
  targetsize : Val
  padding : Val
deriving DecidableEq

/-- The association-list form of a raw CSV row, with the raw column labels. -/
def CsvRow.toRow (x : CsvRow) : Row :=
  [("benchmark", x.benchmark), ("mode", x.mode), ("threads", x.threads),
   ("samples", x.samples), ("unit", x.unit), ("score", x.score),
   ("Score Error (99.9%)", x.scoreError), ("param: sourcesize", x.sourcesize),
   ("param: targetsize", x.targetsize), ("param: padding", x.padding)]

/-- Line 14 of the script, `df.rename(rename_columns, axis='columns')`, row-wise. -/
def renameRow (r : Row) : Row := r.map (fun p => (rename_columns p.1, p.2))

/-- The statement `df.drop(columns=cols)`, row-wise. -/
def dropRow (cols : List String) (r : Row) : Row :=
  r.filter (fun p => !(decide (p.1 ∈ cols)))

/-- The statement `df.loc[mask, c] = v`, row-wise: a matching row gets `c := v`; pandas
creates the column (as NaN) on the rows the mask does not select. -/
def locSetRow (mask : Row → Bool) (c : String) (v : Val) (r : Row) : Row :=
  if mask r then setCol r c v
  else if hasCol r c then r else setCol r c Val.na

/-- The mask `df['benchmark'] == name`. -/
def benchEq (name : String) (r : Row) : Bool :=
  decide (getCol r "benchmark" = Val.vstr name)

/-- The alias mask on a benchmark cell: string cells are regex-searched,
non-string cells do not match. -/
def aliasMaskVal (b : Val) : Bool :=
  match b with
  | Val.vstr s => strContainsAlias s
  | _ => false

/-- The mask `df['benchmark'].str.contains('ld_blocks_partial.address_alias')`. -/
def aliasMaskRow (r : Row) : Bool := aliasMaskVal (getCol r "benchmark")

/-- Pandas arithmetic on cells: NaN (and non-numeric cells) propagate. -/
def numOp (f : ℚ → ℚ → ℚ) : Val → Val → Val
  | Val.vnum a, Val.vnum b => Val.vnum (f a b)
  | _, _ => Val.na

/-- The expression `((df['sourcesize'] - df['offset'] + df['padding']) * 8) + 16` on cells. -/
def rwFor (s o p : Val) : Val :=
  numOp (fun a b => a + b)
    (numOp (fun a b => a * b)
      (numOp (fun a b => a + b) (numOp (fun a b => a - b) s o) p)
      (Val.vnum 8))
    (Val.vnum 16)

/-- Line 28, `df['r/w offset'] = ((df['sourcesize'] - df['offset'] + df['padding']) * 8) + 16`,
row-wise. -/
def rwExpr (r : Row) : Val :=
  rwFor (getCol r "sourcesize") (getCol r "offset") (getCol r "padding")

/-- Lines 14–15: `df.rename(rename_columns, axis='columns').drop(columns=
['mode', 'threads', 'samples', 'unit'])`, row-wise. -/
def cleanRow (r : Row) : Row :=
  dropRow ["mode", "threads", "samples", "unit"] (renameRow r)

/-- Lines 16–25: the ten `df.loc[df['benchmark'] == ..., 'offset'] = ...`
statements, row-wise, in source order (innermost application first). -/
def offsetStepsRow (r : Row) : Row :=
  locSetRow (benchEq "intersectionWithConstantOffset768:ld_blocks_partial.address_alias") "offset" (Val.vnum 768)
    (locSetRow (benchEq "intersectionWithConstantOffset512:ld_blocks_partial.address_alias") "offset" (Val.vnum 512)
      (locSetRow (benchEq "intersectionWithConstantOffset256:ld_blocks_partial.address_alias") "offset" (Val.vnum 256)
        (locSetRow (benchEq "intersectionWithConstantOffset0:ld_blocks_partial.address_alias") "offset" (Val.vnum 0)
          (locSetRow (benchEq "intersectionNoOffset:ld_blocks_partial.address_alias") "offset" (Val.vnum 0)
            (locSetRow (benchEq "intersectionWithConstantOffset768") "offset" (Val.vnum 768)
              (locSetRow (benchEq "intersectionWithConstantOffset512") "offset" (Val.vnum 512)
                (locSetRow (benchEq "intersectionWithConstantOffset256") "offset" (Val.vnum 256)
                  (locSetRow (benchEq "intersectionWithConstantOffset0") "offset" (Val.vnum 0)
                    (locSetRow (benchEq "intersectionNoOffset") "offset" (Val.vnum 0) r)))))))))

/-- Line 26: `df.loc[df['benchmark'].str.contains(...), 'error'] = 0`, row-wise. -/
def errStepRow (r : Row) : Row :=
  locSetRow aliasMaskRow "error" (Val.vnum 0) r

/-- The row-wise composition of all column-level statements of `plot` up to
and including the `r/w offset` assignment (lines 14–28 of the script). -/
def prepRow (r : Row) : Row :=
  setCol (errStepRow (offsetStepsRow (cleanRow r))) "r/w offset"
    (rwExpr (errStepRow (offsetStepsRow (cleanRow r))))

/-- The prepared DataFrame: `prepRow` applied to every raw row. -/
def prepared (df : List CsvRow) : List Row :=
  df.map (fun x => prepRow x.toRow)

/-- The value of the statement `df.drop(columns=['offset', 'padding',
'targetsize', 'sourcesize'])` on line 29 — computed and then discarded,
because the script never assigns it back to `df`. -/
def discardedDrop (df : List CsvRow) : List Row :=
  (prepared df).map (dropRow ["offset", "padding", "targetsize", "sourcesize"])

/-- Line 30, `thrpt = df[~filter]`: the non-alias rows. -/
def thrptRows (df : List CsvRow) : List Row :=
  (prepared df).filter (fun r => !(aliasMaskRow r))

/-- The mask `thrpt['error'] < 1.0`; a NaN (or non-numeric) error compares
as False. -/
def errLt1 (r : Row) : Bool :=
  match getCol r "error" with
  | Val.vnum e => decide (e < 1)
  | _ => false

/-- The subset `thrpt[clean]`: the rows pivoted into the throughput table. -/
def thrptCleanRows (df : List CsvRow) : List Row :=
  (thrptRows df).filter errLt1

/-- The subset `df[filter]`: the rows pivoted into the aliases table. -/
def aliasRows (df : List CsvRow) : List Row :=
  (prepared df).filter aliasMaskRow

/-- The rows `pd.pivot_table` actually groups: rows whose `r/w offset`
index key is NaN are dropped by the pivot. -/
def pivotSource (rows : List Row) : List Row :=
  rows.filter (fun r =>
    match getCol r "r/w offset" with
    | Val.vnum _ => true
    | _ => false)

/-- The numeric values of column `v` collected into the pivot cell at
index `idx` (the `r/w offset`) and column `col` (the benchmark name);
NaN values are skipped by the mean aggregation. -/
def cellValues (rows : List Row) (v : String) (idx : ℚ) (col : String) : List ℚ :=
  rows.filterMap (fun r =>
    if getCol r "r/w offset" = Val.vnum idx ∧ getCol r "benchmark" = Val.vstr col then
      match getCol r v with
      | Val.vnum q => some q
      | _ => none
    else none)

/-- Arithmetic mean of a list of rationals. -/
def mean (l : List ℚ) : ℚ := l.sum / l.length

/-- One cell of a `pd.pivot_table(..., values=..., index=['r/w offset'],
columns=['benchmark'])` output with the default `mean` aggregation: NaN
when no value falls in the cell. -/
def pivotCell (rows : List Row) (v : String) (idx : ℚ) (col : String) : Val :=
  if cellValues rows v idx col = [] then Val.na
  else Val.vnum (mean (cellValues rows v idx col))

/-- The ten exact benchmark names the script assigns an offset to, with
the assigned offsets. -/
def offsetTable : List (String × ℚ) :=
  [("intersectionNoOffset", 0),
   ("intersectionWithConstantOffset0", 0),
   ("intersectionWithConstantOffset256", 256),
   ("intersectionWithConstantOffset512", 512),
   ("intersectionWithConstantOffset768", 768),
   ("intersectionNoOffset:ld_blocks_partial.address_alias", 0),
   ("intersectionWithConstantOffset0:ld_blocks_partial.address_alias", 0),
   ("intersectionWithConstantOffset256:ld_blocks_partial.address_alias", 256),
   ("intersectionWithConstantOffset512:ld_blocks_partial.address_alias", 512),
   ("intersectionWithConstantOffset768:ld_blocks_partial.address_alias", 768)]

/-- The offset cell produced by the ten `df.loc[...] = ...` statements as a
function of the benchmark cell, with fallback `w` (the prior cell value)
when no exact name matches.  The conditions are listed with the last
statement of the script outermost, since a later statement overrides an
earlier one. -/
def offsetFor (b : Val) (w : Val) : Val :=
  if b = Val.vstr "intersectionWithConstantOffset768:ld_blocks_partial.address_alias" then Val.vnum 768
  else if b = Val.vstr "intersectionWithConstantOffset512:ld_blocks_partial.address_alias" then Val.vnum 512
  else if b = Val.vstr "intersectionWithConstantOffset256:ld_blocks_partial.address_alias" then Val.vnum 256
  else if b = Val.vstr "intersectionWithConstantOffset0:ld_blocks_partial.address_alias" then Val.vnum 0
  else if b = Val.vstr "intersectionNoOffset:ld_blocks_partial.address_alias" then Val.vnum 0
  else if b = Val.vstr "intersectionWithConstantOffset768" then Val.vnum 768
  else if b = Val.vstr "intersectionWithConstantOffset512" then Val.vnum 512
  else if b = Val.vstr "intersectionWithConstantOffset256" then Val.vnum 256
  else if b = Val.vstr "intersectionWithConstantOffset0" then Val.vnum 0
  else if b = Val.vstr "intersectionNoOffset" then Val.vnum 0
  else w

/-- The four columns the dead `df.drop(columns=...)` statement on line 29
names; its result is never assigned back to `df`. -/
def droppedCols : List String := ["offset", "padding", "targetsize", "sourcesize"]

/-- The renaming described by the spec's words taken literally: lowercase
the label and strip one leading occurrence of the literal prefix `param: `
if present (compare with `rename_columns`, which removes every occurrence
of the substring). -/
def specRename (name : String) : String :=
  if name = "Score Error (99.9%)" then "error"
  else
    String.mk
      (if leadsWith paramPat (pyLower name).data then (pyLower name).data.drop 7
       else (pyLower name).data)

/-- The raw column labels of the input CSV (spec §6). -/
def csvHeaders : List String :=
  ["benchmark", "mode", "threads", "samples", "unit", "score",
   "Score Error (99.9%)", "param: sourcesize", "param: targetsize", "param: padding"]

/-! Concrete rows used to instantiate the theorems. -/

/-- A plain throughput row of the input CSV. -/
def rowNoOff : CsvRow :=
  ⟨Val.vstr "intersectionNoOffset", Val.vstr "thrpt", Val.vnum 1, Val.vnum 5,
   Val.vstr "ops/us", Val.vnum 20, Val.vnum 0, Val.vnum 100, Val.vnum 100, Val.vnum 4⟩

/-- A row named by the offset-512 benchmark variant. -/
def rowOff512 : CsvRow :=
  ⟨Val.vstr "intersectionWithConstantOffset512", Val.vstr "thrpt", Val.vnum 1, Val.vnum 5,
   Val.vstr "ops/us", Val.vnum 15, Val.vnum 0, Val.vnum 100, Val.vnum 100, Val.vnum 4⟩

/-- A perf-event row whose benchmark name carries the alias suffix. -/
def rowAlias : CsvRow :=
  ⟨Val.vstr "intersectionNoOffset:ld_blocks_partial.address_alias", Val.vstr "thrpt",
   Val.vnum 1, Val.vnum 5, Val.vstr "#/op", Val.vnum 7, Val.vnum 3,
   Val.vnum 100, Val.vnum 100, Val.vnum 4⟩

/-- A row whose benchmark name matches none of the ten literals. -/
def rowOther : CsvRow :=
  ⟨Val.vstr "someOtherBenchmark", Val.vstr "thrpt", Val.vnum 1, Val.vnum 5,
   Val.vstr "ops/us", Val.vnum 9, Val.vnum 0, Val.vnum 100, Val.vnum 100, Val.vnum 4⟩

/-- The row of the spec's worked example (§8): benchmark
`intersectionWithConstantOffset256`, sourcesize 100, padding 4, error 0.5. -/
def rowSpecExample : CsvRow :=
  ⟨Val.vstr "intersectionWithConstantOffset256", Val.vstr "thrpt", Val.vnum 1, Val.vnum 5,
   Val.vstr "ops/us", Val.vnum 20, Val.vnum (1/2), Val.vnum 100, Val.vnum 100, Val.vnum 4⟩

/-! Basic lemmas about `getCol`, `hasCol` and `setCol`. -/

theorem getCol_cons (k : String) (v : Val) (r : Row) (c : String) :
    getCol ((k, v) :: r) c = if k = c then v else getCol r c := by
  simp only [getCol, List.find?]
  by_cases h : k = c <;> simp [h]

theorem hasCol_cons (k : String) (v : Val) (r : Row) (c : String) :
    hasCol ((k, v) :: r) c = (decide (k = c) || hasCol r c) := by
  simp [hasCol]

theorem getCol_na_of_hasCol_false (r : Row) (c : String) (h : hasCol r c = false) :
    getCol r c = Val.na := by
  induction r with
  | nil => rfl
  | cons p r ih =>
    obtain ⟨k, v⟩ := p
    simp only [hasCol_cons, Bool.or_eq_false_iff, decide_eq_false_iff_not] at h
    simp [getCol_cons, h.1, ih h.2]

theorem getCol_map_set (r : Row) (c : String) (v : Val) (h : hasCol r c = true) :
    getCol (r.map (fun p => if p.1 = c then (c, v) else p)) c = v := by
  induction r with
  | nil => simp [hasCol] at h
  | cons p r ih =>
    obtain ⟨k, v'⟩ := p
    by_cases hk : k = c
    · simp [hk, getCol_cons]
    · simp only [hasCol_cons, decide_eq_true_eq, Bool.or_eq_true] at h
      rcases h with h | h
      · exact absurd h hk
      · simp [hk, getCol_cons, ih h]

theorem getCol_append_set (r : Row) (c : String) (v : Val) (h : hasCol r c = false) :
    getCol (r ++ [(c, v)]) c = v := by
  induction r with
  | nil => simp [getCol_cons]
  | cons p r ih =>
    obtain ⟨k, v'⟩ := p
    simp only [hasCol_cons, Bool.or_eq_false_iff, decide_eq_false_iff_not] at h
    simp [getCol_cons, h.1, ih h.2]

theorem getCol_setCol_self (r : Row) (c : String) (v : Val) :
    getCol (setCol r c v) c = v := by
  unfold setCol
  by_cases h : hasCol r c <;> simp [h, getCol_map_set, getCol_append_set]

theorem getCol_map_set_ne (r : Row) (c : String) (v : Val) (c' : String) (h : c' ≠ c) :
    getCol (r.map (fun p => if p.1 = c then (c, v) else p)) c' = getCol r c' := by
  induction r with
  | nil => rfl
  | cons p r ih =>
    obtain ⟨k, v'⟩ := p
    by_cases hk : k = c
    · subst hk
      simp [getCol_cons, Ne.symm h, ih]
    · simp [getCol_cons, hk, ih]

theorem getCol_append_ne (r : Row) (c : String) (v : Val) (c' : String) (h : c' ≠ c) :
    getCol (r ++ [(c, v)]) c' = getCol r c' := by
  induction r with
  | nil => simp [getCol_cons, Ne.symm h, getCol]
  | cons p r ih =>
    obtain ⟨k, v'⟩ := p
    simp [getCol_cons, ih]

theorem getCol_setCol_ne (r : Row) (c : String) (v : Val) (c' : String) (h : c' ≠ c) :
    getCol (setCol r c v) c' = getCol r c' := by
  unfold setCol
  by_cases hc : hasCol r c <;>
    simp [hc, getCol_map_set_ne _ _ _ _ h, getCol_append_ne _ _ _ _ h]

theorem hasCol_map_set (r : Row) (c : String) (v : Val) (c' : String)
    (h : hasCol r c' = true) :
    hasCol (r.map (fun p => if p.1 = c then (c, v) else p)) c' = true := by
  induction r with
  | nil => simp [hasCol] at h
  | cons p r ih =>
    obtain ⟨k, v'⟩ := p
    simp only [hasCol_cons, decide_eq_true_eq, Bool.or_eq_true] at h
    rcases h with h | h
    · subst h
      by_cases hk : k = c
      · subst hk; simp [hasCol_cons]
      · simp [hasCol_cons, hk]
    · by_cases hk : k = c <;> simp [hasCol_cons, hk, ih h]

theorem hasCol_setCol_self (r : Row) (c : String) (v : Val) :
    hasCol (setCol r c v) c = true := by
  unfold setCol
  by_cases h : hasCol r c
  · simp [h, hasCol_map_set _ _ _ _ h]
  · rw [if_neg h]
    simp only [hasCol, List.any_append, List.any_cons, List.any_nil]
    simp

theorem hasCol_setCol_of (r : Row) (c : String) (v : Val) (c' : String)
    (h : hasCol r c' = true) :
    hasCol (setCol r c v) c' = true := by
  unfold setCol
  by_cases hc : hasCol r c
  · simp [hc, hasCol_map_set _ _ _ _ h]
  · simp only [hc, if_false, Bool.if_false_left]
    simp only [hasCol, List.any_append] at *
    simp [h]

/-! Lemmas about `locSetRow`. -/

theorem getCol_locSet_self (m : Row → Bool) (c : String) (v : Val) (r : Row) :
    getCol (locSetRow m c v r) c = if m r then v else getCol r c := by
  unfold locSetRow
  by_cases hm : m r
  · simp [hm, getCol_setCol_self]
  · by_cases hc : hasCol r c
    · simp [hm, hc]
    · simp only [hm, if_false, Bool.false_eq_true, if_neg, hc]
      simp [getCol_setCol_self, getCol_na_of_hasCol_false _ _ (by simpa using hc)]

theorem getCol_locSet_ne (m : Row → Bool) (c : String) (v : Val) (r : Row) (c' : String)
    (h : c' ≠ c) :
    getCol (locSetRow m c v r) c' = getCol r c' := by
  unfold locSetRow
  by_cases hm : m r
  · simp [hm, getCol_setCol_ne _ _ _ _ h]
  · by_cases hc : hasCol r c <;> simp [hm, hc, getCol_setCol_ne _ _ _ _ h]

theorem hasCol_locSet_self (m : Row → Bool) (c : String) (v : Val) (r : Row) :
    hasCol (locSetRow m c v r) c = true := by
  unfold locSetRow
  by_cases hm : m r
  · simp [hm, hasCol_setCol_self]
  · by_cases hc : hasCol r c <;> simp [hm, hc, hasCol_setCol_self]

theorem hasCol_locSet_of (m : Row → Bool) (c : String) (v : Val) (r : Row) (c' : String)
    (h : hasCol r c' = true) :
    hasCol (locSetRow m c v r) c' = true := by
  unfold locSetRow
  by_cases hm : m r
  · simp [hm, hasCol_setCol_of _ _ _ _ h]
  · by_cases hc : hasCol r c <;> simp [hm, hc, h, hasCol_setCol_of _ _ _ _ h]

/-! Characterization of the pipeline stages on a raw CSV row. -/

theorem cleanRow_toRow (x : CsvRow) :
    cleanRow x.toRow =
      [("benchmark", x.benchmark), ("score", x.score), ("error", x.scoreError),
       ("sourcesize", x.sourcesize), ("targetsize", x.targetsize),
       ("padding", x.padding)] := rfl

theorem getCol_offsetSteps_bench (r : Row) :
    getCol (offsetStepsRow r) "benchmark" = getCol r "benchmark" := by
  simp only [offsetStepsRow]
  simp [getCol_locSet_ne]

theorem getCol_offsetSteps_offset (r : Row) :
    getCol (offsetStepsRow r) "offset" =
      offsetFor (getCol r "benchmark") (getCol r "offset") := by
  simp only [offsetStepsRow, getCol_locSet_self, benchEq, offsetFor]
  simp [getCol_locSet_ne]

theorem getCol_offsetSteps_ne (r : Row) (c : String) (h : c ≠ "offset") :
    getCol (offsetStepsRow r) c = getCol r c := by
  simp only [offsetStepsRow]
  simp [getCol_locSet_ne _ _ _ _ _ h]

theorem getCol_errStep_error (r : Row) :
    getCol (errStepRow r) "error" =
      if aliasMaskVal (getCol r "benchmark") then Val.vnum 0 else getCol r "error" := by
  simp only [errStepRow, getCol_locSet_self, aliasMaskRow]

theorem getCol_errStep_ne (r : Row) (c : String) (h : c ≠ "error") :
    getCol (errStepRow r) c = getCol r c := by
  simp only [errStepRow]
  simp [getCol_locSet_ne _ _ _ _ _ h]

/-- The benchmark cell survives the whole pipeline unchanged. -/
theorem prep_getCol_bench (x : CsvRow) :
    getCol (prepRow x.toRow) "benchmark" = x.benchmark := by
  simp only [prepRow]
  rw [getCol_setCol_ne _ _ _ _ (by decide), getCol_errStep_ne _ _ (by decide),
    getCol_offsetSteps_bench, cleanRow_toRow]
  simp [getCol_cons]

/-- The offset cell after the pipeline: exact-name matching with NaN fallback. -/
theorem prep_getCol_offset (x : CsvRow) :
    getCol (prepRow x.toRow) "offset" = offsetFor x.benchmark Val.na := by
  simp only [prepRow]
  rw [getCol_setCol_ne _ _ _ _ (by decide), getCol_errStep_ne _ _ (by decide),
    getCol_offsetSteps_offset, cleanRow_toRow]
  simp [getCol_cons, getCol]

/-- The error cell after the pipeline: forced to 0 exactly on the rows whose
benchmark cell matches the alias regex. -/
theorem prep_getCol_error (x : CsvRow) :
    getCol (prepRow x.toRow) "error" =
      if aliasMaskVal x.benchmark then Val.vnum 0 else x.scoreError := by
  simp only [prepRow]
  rw [getCol_setCol_ne _ _ _ _ (by decide), getCol_errStep_error,
    getCol_offsetSteps_bench, getCol_offsetSteps_ne _ _ (by decide), cleanRow_toRow]
  simp [getCol_cons]

/-- The sourcesize cell survives the pipeline unchanged. -/
theorem prep_getCol_sourcesize (x : CsvRow) :
    getCol (prepRow x.toRow) "sourcesize" = x.sourcesize := by
  simp only [prepRow]
  rw [getCol_setCol_ne _ _ _ _ (by decide), getCol_errStep_ne _ _ (by decide),
    getCol_offsetSteps_ne _ _ (by decide), cleanRow_toRow]
  simp [getCol_cons]

/-- The padding cell survives the pipeline unchanged. -/
theorem prep_getCol_padding (x : CsvRow) :
    getCol (prepRow x.toRow) "padding" = x.padding := by
  simp only [prepRow]
  rw [getCol_setCol_ne _ _ _ _ (by decide), getCol_errStep_ne _ _ (by decide),
    getCol_offsetSteps_ne _ _ (by decide), cleanRow_toRow]
  simp [getCol_cons]

/-- The derived `r/w offset` cell after the pipeline. -/
theorem prep_getCol_rw (x : CsvRow) :
    getCol (prepRow x.toRow) "r/w offset" =
      rwFor x.sourcesize (offsetFor x.benchmark Val.na) x.padding := by
  simp only [prepRow, getCol_setCol_self, rwExpr]
  rw [getCol_errStep_ne _ _ (by decide), getCol_errStep_ne _ _ (by decide),
    getCol_errStep_ne _ _ (by decide), getCol_offsetSteps_ne _ _ (by decide),
    getCol_offsetSteps_offset, getCol_offsetSteps_ne _ _ (by decide), cleanRow_toRow]
  simp [getCol_cons, getCol]

/-- The alias mask evaluated on a prepared row is the alias mask of the raw
benchmark cell. -/
theorem aliasMaskRow_prep (x : CsvRow) :
    aliasMaskRow (prepRow x.toRow) = aliasMaskVal x.benchmark := by
  rw [aliasMaskRow, prep_getCol_bench]

/-- NaN on the right of a pandas arithmetic operation yields NaN. -/
theorem numOp_na_right (f : ℚ → ℚ → ℚ) (v : Val) : numOp f v Val.na = Val.na := by
  cases v <;> rfl

/-- NaN on the left of a pandas arithmetic operation yields NaN. -/
theorem numOp_na_left (f : ℚ → ℚ → ℚ) (v : Val) : numOp f Val.na v = Val.na := by
  cases v <;> rfl

/-- A NaN offset makes the whole derived `r/w offset` NaN. -/
theorem rwFor_na_offset (s p : Val) : rwFor s Val.na p = Val.na := by
  simp [rwFor, numOp_na_right, numOp_na_left]

/-- The derived `r/w offset` on three numeric cells. -/
theorem rwFor_num (s o p : ℚ) :
    rwFor (Val.vnum s) (Val.vnum o) (Val.vnum p) =
      Val.vnum ((s - o + p) * 8 + 16) := rfl

/-- Starting with a concatenation is starting with the first part, then the
second part after it. -/
theorem leadsWith_append (a b l : List Char) :
    leadsWith (a ++ b) l = (leadsWith a l && leadsWith b (l.drop a.length)) := by
  induction a generalizing l with
  | nil => simp [leadsWith]
  | cons x xs ih =>
    cases l with
    | nil => simp [leadsWith]
    | cons y ys => simp [leadsWith, ih, Bool.and_assoc]

/-- A position where the literal alias string starts is a position where the
alias regex matches (the regex dot accepts the literal dot). -/
theorem aliasHere_of_lit (l : List Char) (h : leadsWith aliasLit l = true) :
    aliasHere l = true := by
  have hsplit : aliasLit = aliasPre ++ '.' :: aliasPost := rfl
  rw [hsplit, leadsWith_append, Bool.and_eq_true] at h
  obtain ⟨h1, h2⟩ := h
  unfold aliasHere
  rw [h1, Bool.true_and]
  cases hd : l.drop aliasPre.length with
  | nil => rw [hd] at h2; simp [leadsWith] at h2
  | cons c rest =>
    rw [hd] at h2
    simp only [leadsWith, Bool.and_eq_true, beq_iff_eq] at h2
    obtain ⟨rfl, h3⟩ := h2
    simp [h3]

/-- Monotonicity of suffix search. -/
theorem anyTail_imp (p q : List Char → Bool) (hpq : ∀ l, p l = true → q l = true)
    (l : List Char) (h : anyTail p l = true) : anyTail q l = true := by
  induction l with
  | nil => exact hpq [] h
  | cons c cs ih =>
    simp only [anyTail, Bool.or_eq_true] at h ⊢
    rcases h with h | h
    · exact Or.inl (hpq _ h)
    · exact Or.inr (ih h)

/-- A benchmark name containing the literal alias substring matches the
regex search the script performs. -/
theorem strContainsAlias_of_containsLit (s : String)
    (h : containsLit aliasLit s = true) : strContainsAlias s = true :=
  anyTail_imp _ _ aliasHere_of_lit s.data h

/-- Dropping columns leaves every other column unchanged. -/
theorem getCol_dropRow_not_mem (cols : List String) (r : Row) (c : String)
    (h : c ∉ cols) :
    getCol (dropRow cols r) c = getCol r c := by
  induction r with
  | nil => rfl
  | cons p r ih =>
    obtain ⟨k, v⟩ := p
    by_cases hk : k ∈ cols
    · have hkc : k ≠ c := fun e => h (e ▸ hk)
      simp [dropRow, List.filter_cons, hk, getCol_cons, hkc] at ih ⊢
      exact ih
    · simp [dropRow, List.filter_cons, hk, getCol_cons] at ih ⊢
      by_cases hkc : k = c <;> simp [hkc, ih]

/-- The noise filter `thrpt['error'] < 1.0` holds exactly of rows whose
error cell is a number strictly below 1. -/
theorem errLt1_iff (r : Row) :
    errLt1 r = true ↔ ∃ e : ℚ, getCol r "error" = Val.vnum e ∧ e < 1 := by
  unfold errLt1
  cases h : getCol r "error" with
  | vstr s => simp
  | na => simp
  | vnum e => simp [decide_eq_true_eq]

/-- Membership in the prepared DataFrame. -/
theorem mem_prepared (df : List CsvRow) (r : Row) (h : r ∈ prepared df) :
    ∃ x, x ∈ df ∧ r = prepRow x.toRow := by
  simp only [prepared, List.mem_map] at h
  obtain ⟨x, hx, he⟩ := h
  exact ⟨x, hx, he.symm⟩

/-! The claims. -/

/-- Claim C1: for every row that has a defined (non-missing) offset, the
derived column `r/w offset` equals `(sourcesize - offset + padding) * 8 + 16`. -/
theorem rw_offset_formula (x : CsvRow) (o s p : ℚ)
    (ho : getCol (prepRow x.toRow) "offset" = Val.vnum o)
    (hs : x.sourcesize = Val.vnum s) (hp : x.padding = Val.vnum p) :
    getCol (prepRow x.toRow) "r/w offset" = Val.vnum ((s - o + p) * 8 + 16) := by
  rw [prep_getCol_offset] at ho
  rw [prep_getCol_rw, hs, hp, ho, rwFor_num]

/-- Witness for C1 at a concrete row with offset 0, sourcesize 100, padding 4. -/
theorem rw_offset_formula_witness :
    getCol (prepRow rowNoOff.toRow) "r/w offset" =
      Val.vnum ((100 - 0 + 4) * 8 + 16) :=
  rw_offset_formula rowNoOff 0 100 4 (by decide) rfl rfl

/-- Claim C2: a row whose benchmark name exactly equals one of the ten
enumerated literals is assigned the offset paired with it in `offsetTable`
(0, 0, 256, 512, 768 for the five variants, plain and alias-suffixed). -/
theorem offset_assignment (x : CsvRow) (name : String) (o : ℚ)
    (hmem : (name, o) ∈ offsetTable) (hb : x.benchmark = Val.vstr name) :
    getCol (prepRow x.toRow) "offset" = Val.vnum o := by
  rw [prep_getCol_offset, hb]
  fin_cases hmem <;> decide

/-- Witness for C2 at the offset-512 benchmark name. -/
theorem offset_assignment_witness :
    getCol (prepRow rowOff512.toRow) "offset" = Val.vnum 512 :=
  offset_assignment rowOff512 "intersectionWithConstantOffset512" 512 (by decide) rfl

/-- Claim C3: every row whose benchmark name contains the literal substring
`ld_blocks_partial.address_alias` carries error 0 into the output, whatever
the input error value was. -/
theorem alias_error_zero (x : CsvRow) (s : String) (hb : x.benchmark = Val.vstr s)
    (hc : containsLit aliasLit s = true) :
    getCol (prepRow x.toRow) "error" = Val.vnum 0 := by
  rw [prep_getCol_error, hb]
  simp [aliasMaskVal, strContainsAlias_of_containsLit s hc]

/-- Witness for C3 at a concrete alias row whose input error is 3. -/
theorem alias_error_zero_witness :
    getCol (prepRow rowAlias.toRow) "error" = Val.vnum 0 :=
  alias_error_zero rowAlias "intersectionNoOffset:ld_blocks_partial.address_alias"
    rfl (by decide)

/-- Claim C4: every row handed to the throughput pivot comes from an input
row that is not alias-masked and whose original error is a number strictly
below 1; in particular no row with original error ≥ 1.0 contributes. -/
theorem throughput_pivot_source (df : List CsvRow) (r : Row)
    (hr : r ∈ thrptCleanRows df) :
    ∃ x, x ∈ df ∧ r = prepRow x.toRow ∧ aliasMaskVal x.benchmark = false ∧
      ∃ e : ℚ, x.scoreError = Val.vnum e ∧ e < 1 := by
  simp only [thrptCleanRows] at hr
  have hr2 := (List.mem_filter.mp hr).1
  have hlt := (List.mem_filter.mp hr).2
  have hr3 := (List.mem_filter.mp hr2).1
  have hna := (List.mem_filter.mp hr2).2
  obtain ⟨x, hx, he⟩ := mem_prepared df _ hr3
  rw [he] at hlt hna
  have hmask : aliasMaskVal x.benchmark = false := by
    rw [← aliasMaskRow_prep]
    simpa using hna
  have herr : getCol (prepRow x.toRow) "error" = x.scoreError := by
    rw [prep_getCol_error, hmask]
    simp
  obtain ⟨e, hee, hlt'⟩ := (errLt1_iff _).mp hlt
  rw [herr] at hee
  exact ⟨x, hx, he, hmask, e, hee, hlt'⟩

/-- Witness for C4: the plain throughput row is in the pivot input, and the
theorem recovers its origin. -/
theorem throughput_pivot_source_witness :
    ∃ x, x ∈ [rowNoOff] ∧ prepRow rowNoOff.toRow = prepRow x.toRow ∧
      aliasMaskVal x.benchmark = false ∧
      ∃ e : ℚ, x.scoreError = Val.vnum e ∧ e < 1 := by
  refine throughput_pivot_source [rowNoOff] (prepRow rowNoOff.toRow) ?_
  have h1 : aliasMaskRow (prepRow rowNoOff.toRow) = false := by
    rw [aliasMaskRow_prep]; decide
  have h2 : errLt1 (prepRow rowNoOff.toRow) = true := by
    unfold errLt1
    rw [prep_getCol_error]
    decide
  simp only [thrptCleanRows, thrptRows, prepared, List.map_cons, List.map_nil]
  simp [List.filter, h1, h2]

/-- Counterexample for C5: on the spec's own example row (benchmark
`intersectionWithConstantOffset256`, sourcesize 100, padding 4), the
pipeline does not produce the r/w offset −1232 stated in the spec. -/
theorem spec_example_rw_not_minus_1232 :
    getCol (prepRow rowSpecExample.toRow) "r/w offset" ≠ Val.vnum (-1232) := by
  rw [prep_getCol_rw]
  have hoff : offsetFor rowSpecExample.benchmark Val.na = Val.vnum 256 := by decide
  rw [hoff]
  show rwFor (Val.vnum 100) (Val.vnum 256) (Val.vnum 4) ≠ Val.vnum (-1232)
  rw [rwFor_num]
  simp only [ne_eq, Val.vnum.injEq]
  norm_num

/-- Claim C5 (amended): on the spec's example row the pipeline assigns
offset 256, computes r/w offset (100 − 256 + 4)·8 + 16 = −1200, and the row
is included in the throughput pivot input because its error 0.5 is below
1.0 (the spec's figure −1232 miscomputes the formula). -/
theorem spec_example_row_behaviour :
    getCol (prepRow rowSpecExample.toRow) "offset" = Val.vnum 256 ∧
    getCol (prepRow rowSpecExample.toRow) "r/w offset" = Val.vnum (-1200) ∧
    prepRow rowSpecExample.toRow ∈ thrptCleanRows [rowSpecExample] := by
  refine ⟨by decide, ?_, ?_⟩
  · rw [prep_getCol_rw]
    have hoff : offsetFor rowSpecExample.benchmark Val.na = Val.vnum 256 := by decide
    rw [hoff]
    show rwFor (Val.vnum 100) (Val.vnum 256) (Val.vnum 4) = Val.vnum (-1200)
    rw [rwFor_num]
    norm_num
  · have h1 : aliasMaskRow (prepRow rowSpecExample.toRow) = false := by
      rw [aliasMaskRow_prep]; decide
    have h2 : errLt1 (prepRow rowSpecExample.toRow) = true := by
      unfold errLt1
      rw [prep_getCol_error]
      have : aliasMaskVal rowSpecExample.benchmark = false := by decide
      rw [this]
      show decide ((1 : ℚ)/2 < 1) = true
      norm_num
    simp only [thrptCleanRows, thrptRows, prepared, List.map_cons, List.map_nil]
    simp [List.filter, h1, h2]

/-- Counterexample for C6: the column renamer is not "strip the literal
prefix `param: `" — on a label where `param: ` occurs in the middle, the
code removes that occurrence while a prefix strip would not. -/
theorem rename_not_prefix_strip :
    rename_columns "A param: B" ≠ specRename "A param: B" := by decide

/-- Claim C6 (amended): the renamer maps the exact label
`Score Error (99.9%)` to `error`, and every other label to its lowercased
form with every occurrence of `param: ` removed (Python `str.replace`
removes all occurrences, not only a leading one); on the actual CSV header
labels this coincides with stripping a single leading `param: ` prefix. -/
theorem rename_columns_behaviour :
    rename_columns "Score Error (99.9%)" = "error" ∧
    (∀ name : String, name ≠ "Score Error (99.9%)" →
      rename_columns name = String.mk (removeParam (pyLower name).data)) ∧
    (∀ name : String, name ∈ csvHeaders → rename_columns name = specRename name) := by
  refine ⟨rfl, fun name h => ?_, fun name h => ?_⟩
  · rw [rename_columns, if_neg h]
  · fin_cases h <;> decide

/-- Witness for C6 (amended) at the label `param: sourcesize`. -/
theorem rename_columns_behaviour_witness :
    rename_columns "param: sourcesize" =
      String.mk (removeParam (pyLower "param: sourcesize").data) ∧
    rename_columns "param: sourcesize" = specRename "param: sourcesize" :=
  ⟨rename_columns_behaviour.2.1 "param: sourcesize" (by decide),
   rename_columns_behaviour.2.2 "param: sourcesize" (by decide)⟩

/-- Claim C7: a row whose benchmark name matches none of the ten literal
names gets no offset (the cell stays NaN), its derived `r/w offset` is NaN,
and it feeds neither the throughput pivot nor the aliases pivot. -/
theorem unmatched_row_excluded (x : CsvRow)
    (h : ∀ s : String, x.benchmark = Val.vstr s → ∀ o : ℚ, (s, o) ∉ offsetTable) :
    getCol (prepRow x.toRow) "offset" = Val.na ∧
    getCol (prepRow x.toRow) "r/w offset" = Val.na ∧
    ∀ df : List CsvRow,
      prepRow x.toRow ∉ pivotSource (thrptCleanRows df) ∧
      prepRow x.toRow ∉ pivotSource (aliasRows df) := by
  have hoff : offsetFor x.benchmark Val.na = Val.na := by
    cases hb : x.benchmark with
    | vnum q => rfl
    | na => rfl
    | vstr s =>
      have h1 : s ≠ "intersectionWithConstantOffset768:ld_blocks_partial.address_alias" :=
        fun e => h s hb 768 (by rw [e]; decide)
      have h2 : s ≠ "intersectionWithConstantOffset512:ld_blocks_partial.address_alias" :=
        fun e => h s hb 512 (by rw [e]; decide)
      have h3 : s ≠ "intersectionWithConstantOffset256:ld_blocks_partial.address_alias" :=
        fun e => h s hb 256 (by rw [e]; decide)
      have h4 : s ≠ "intersectionWithConstantOffset0:ld_blocks_partial.address_alias" :=
        fun e => h s hb 0 (by rw [e]; decide)
      have h5 : s ≠ "intersectionNoOffset:ld_blocks_partial.address_alias" :=
        fun e => h s hb 0 (by rw [e]; decide)
      have h6 : s ≠ "intersectionWithConstantOffset768" :=
        fun e => h s hb 768 (by rw [e]; decide)
      have h7 : s ≠ "intersectionWithConstantOffset512" :=
        fun e => h s hb 512 (by rw [e]; decide)
      have h8 : s ≠ "intersectionWithConstantOffset256" :=
        fun e => h s hb 256 (by rw [e]; decide)
      have h9 : s ≠ "intersectionWithConstantOffset0" :=
        fun e => h s hb 0 (by rw [e]; decide)
      have h10 : s ≠ "intersectionNoOffset" :=
        fun e => h s hb 0 (by rw [e]; decide)
      simp [offsetFor, h1, h2, h3, h4, h5, h6, h7, h8, h9, h10]
  have hrw : getCol (prepRow x.toRow) "r/w offset" = Val.na := by
    rw [prep_getCol_rw, hoff, rwFor_na_offset]
  refine ⟨by rw [prep_getCol_offset, hoff], hrw, ?_⟩
  intro df
  constructor
  · intro hmem
    simp only [pivotSource] at hmem
    have hp := (List.mem_filter.mp hmem).2
    simp only [hrw] at hp
    exact Bool.false_ne_true hp
  · intro hmem
    simp only [pivotSource] at hmem
    have hp := (List.mem_filter.mp hmem).2
    simp only [hrw] at hp
    exact Bool.false_ne_true hp

/-- Witness for C7 at a row named `someOtherBenchmark`. -/
theorem unmatched_row_excluded_witness :
    getCol (prepRow rowOther.toRow) "offset" = Val.na ∧
    getCol (prepRow rowOther.toRow) "r/w offset" = Val.na ∧
    prepRow rowOther.toRow ∉ pivotSource (thrptCleanRows [rowOther]) := by
  obtain ⟨h1, h2, h3⟩ := unmatched_row_excluded rowOther (by
    intro s hs o hm
    have hv : Val.vstr "someOtherBenchmark" = Val.vstr s := hs
    injection hv with hv'
    subst hv'
    simp [offsetTable, Prod.mk.injEq] at hm)
  exact ⟨h1, h2, (h3 [rowOther]).1⟩

/-- Claim C8: the line-29 `df.drop(columns=['offset', 'padding',
'targetsize', 'sourcesize'])` is never assigned back, so every row of the
table the downstream steps use — the prepared table, the throughput pivot
input and the aliases pivot input — still has all four columns; and the
drop expression itself would have changed no other column. -/
theorem dead_drop_no_effect (df : List CsvRow) :
    (∀ r, r ∈ prepared df → ∀ c, c ∈ droppedCols → hasCol r c = true) ∧
    (∀ r, r ∈ thrptCleanRows df → ∀ c, c ∈ droppedCols → hasCol r c = true) ∧
    (∀ r, r ∈ aliasRows df → ∀ c, c ∈ droppedCols → hasCol r c = true) ∧
    ∀ (r : Row) (c : String), c ∉ droppedCols →
      getCol (dropRow droppedCols r) c = getCol r c := by
  have hmain : ∀ r, r ∈ prepared df → ∀ c, c ∈ droppedCols → hasCol r c = true := by
    intro r hr c hc
    obtain ⟨x, hx, he⟩ := mem_prepared df r hr
    rw [he]
    have hclean : ∀ c', hasCol (cleanRow x.toRow) c' = true →
        hasCol (prepRow x.toRow) c' = true := by
      intro c' h'
      simp only [prepRow]
      apply hasCol_setCol_of
      simp only [errStepRow]
      apply hasCol_locSet_of
      simp only [offsetStepsRow]
      repeat apply hasCol_locSet_of
      exact h'
    have hoffcol : hasCol (prepRow x.toRow) "offset" = true := by
      simp only [prepRow]
      apply hasCol_setCol_of
      simp only [errStepRow]
      apply hasCol_locSet_of
      simp only [offsetStepsRow]
      exact hasCol_locSet_self _ _ _ _
    fin_cases hc
    · exact hoffcol
    · exact hclean "padding" (by rw [cleanRow_toRow]; rfl)
    · exact hclean "targetsize" (by rw [cleanRow_toRow]; rfl)
    · exact hclean "sourcesize" (by rw [cleanRow_toRow]; rfl)
  refine ⟨hmain, ?_, ?_, ?_⟩
  · intro r hr
    simp only [thrptCleanRows] at hr
    have hr2 := (List.mem_filter.mp hr).1
    simp only [thrptRows] at hr2
    exact hmain r (List.mem_filter.mp hr2).1
  · intro r hr
    simp only [aliasRows] at hr
    exact hmain r (List.mem_filter.mp hr).1
  · intro r c hcn
    exact getCol_dropRow_not_mem _ _ _ hcn

/-- Witness for C8: a prepared row still has the `sourcesize` column and
the drop expression leaves an unrelated column untouched. -/
theorem dead_drop_no_effect_witness :
    hasCol (prepRow rowNoOff.toRow) "sourcesize" = true ∧
    getCol (dropRow droppedCols [("score", Val.vnum 3)]) "score" =
      getCol [("score", Val.vnum 3)] "score" := by
  constructor
  · exact (dead_drop_no_effect [rowNoOff]).1 (prepRow rowNoOff.toRow)
      (by simp [prepared]) "sourcesize" (by decide)
  · exact (dead_drop_no_effect []).2.2.2 [("score", Val.vnum 3)] "score" (by decide)

/-- Claim C9: the data transformation is deterministic — on equal inputs,
the two pivot inputs and every cell of both pivot tables coincide. -/
theorem pipeline_deterministic (df1 df2 : List CsvRow) (h : df1 = df2) :
    thrptCleanRows df1 = thrptCleanRows df2 ∧ aliasRows df1 = aliasRows df2 ∧
    ∀ (v : String) (idx : ℚ) (col : String),
      pivotCell (thrptCleanRows df1) v idx col = pivotCell (thrptCleanRows df2) v idx col ∧
      pivotCell (aliasRows df1) v idx col = pivotCell (aliasRows df2) v idx col := by
  subst h
  exact ⟨rfl, rfl, fun _ _ _ => ⟨rfl, rfl⟩⟩

/-- Witness for C9 on a one-row input. -/
theorem pipeline_deterministic_witness :
    thrptCleanRows [rowNoOff] = thrptCleanRows [rowNoOff] :=
  (pipeline_deterministic [rowNoOff] [rowNoOff] rfl).1

/-- Claim C10: every numeric error cell of the aliases pivot table is 0 —
all rows feeding it had their error forced to 0, and the mean of zeros is 0. -/
theorem alias_pivot_error_zero (df : List CsvRow) (idx : ℚ) (col : String) (q : ℚ)
    (h : pivotCell (aliasRows df) "error" idx col = Val.vnum q) : q = 0 := by
  unfold pivotCell at h
  by_cases hne : cellValues (aliasRows df) "error" idx col = []
  · rw [if_pos hne] at h
    exact absurd h (by simp)
  · rw [if_neg hne] at h
    injection h with hq
    have hz : ∀ y ∈ cellValues (aliasRows df) "error" idx col, y = 0 := by
      intro y hy
      simp only [cellValues] at hy
      rw [List.mem_filterMap] at hy
      obtain ⟨r, hr, hval⟩ := hy
      simp only [aliasRows] at hr
      have hr1 := (List.mem_filter.mp hr).1
      have hmaskr := (List.mem_filter.mp hr).2
      obtain ⟨x, hx, he⟩ := mem_prepared df r hr1
      rw [he] at hmaskr hval
      rw [aliasMaskRow_prep] at hmaskr
      have herr : getCol (prepRow x.toRow) "error" = Val.vnum 0 := by
        rw [prep_getCol_error]
        simp [hmaskr]
      rw [herr] at hval
      split at hval
      · simp only [Option.some.injEq] at hval
        exact hval.symm
      · exact absurd hval (by simp)
    have hsum : (cellValues (aliasRows df) "error" idx col).sum = 0 :=
      List.sum_eq_zero hz
    rw [← hq]
    simp [mean, hsum]

/-- Witness for C10: a one-row aliases pivot with a nonempty error cell. -/
theorem alias_pivot_error_zero_witness : (0 : ℚ) = 0 :=
  alias_pivot_error_zero [rowAlias] 848
    "intersectionNoOffset:ld_blocks_partial.address_alias" 0 (by
      have hoff : offsetFor rowAlias.benchmark Val.na = Val.vnum 0 := by decide
      have hrw : getCol (prepRow rowAlias.toRow) "r/w offset" = Val.vnum 848 := by
        rw [prep_getCol_rw, hoff]
        show rwFor (Val.vnum 100) (Val.vnum 0) (Val.vnum 4) = Val.vnum 848
        rw [rwFor_num]
        norm_num
      have hb : getCol (prepRow rowAlias.toRow) "benchmark" =
          Val.vstr "intersectionNoOffset:ld_blocks_partial.address_alias" :=
        prep_getCol_bench rowAlias
      have herr : getCol (prepRow rowAlias.toRow) "error" = Val.vnum 0 := by
        rw [prep_getCol_error]
        decide
      have hmask : aliasMaskRow (prepRow rowAlias.toRow) = true := by
        rw [aliasMaskRow_prep]
        decide
      have hrows : aliasRows [rowAlias] = [prepRow rowAlias.toRow] := by
        simp only [aliasRows, prepared, List.map_cons, List.map_nil]
        simp [List.filter, hmask]
      rw [hrows]
      have hcv : cellValues [prepRow rowAlias.toRow] "error" 848
          "intersectionNoOffset:ld_blocks_partial.address_alias" = [0] := by
        simp [cellValues, hrw, hb, herr]
      simp [pivotCell, hcv, mean])

end Benchmarks
